import Mathlib

/-!
Verification of the univer mutation/command + undo-redo transaction model.

Definitions are shallow embeddings of the TypeScript sources:
  * `src/unnamed/part_001` — doc delete/merge commands
    (`DeleteCustomBlockCommand`, `MergeTwoParagraphCommand`,
    `DeleteLeftCommand`, `DeleteRightCommand`, `getParagraphBody`,
    `getTextRangesWhenDelete`);
  * `src/packages/sheets/src/commands/commands/insert-row-col.command.ts`
    (`InsertRowCommand`, `InsertColCommand`);
  * `src/packages/engine-render/src/components/docs/layout/style/custom-range.ts`
    (`DeltaColumnWidthCommand`, `SetColWidthCommand`);
  * `src/unnamed/part_002` (`SetSheetImageCommand`).

Collaborators living outside the repository snapshot (TextX/JSONX
application, mutation handlers, `sequenceExecute`, the skeleton/layout
provider) are modelled from the specification; every such definition
carries a doc comment starting with `Modelled from the spec:`.

Offsets and lengths are carried as `Int`, matching the JavaScript number
arithmetic of the source (so that expressions such as `startOffset - 1`
keep their value at 0 instead of truncating).
-/

namespace Univer

/-- Deletion direction, from `core-editing.command.ts` (`DeleteDirection`). -/
inductive DeleteDirection where
  | left
  | right
deriving DecidableEq, Repr

/-- `PositionedObjectLayoutType` from `@univerjs/core`: `INLINE` against the
floating layout kinds (only the distinction inline / non-inline is used by
the commands). -/
inductive PositionedObjectLayoutType where
  | inline
  | wrapNone
  | wrapSquare
deriving DecidableEq, Repr

/-- `ITextRun` — formatting over the half-open range `[st, ed)` of the data
stream; `ts` stands for the style payload. -/
structure ITextRun where
  st : Int
  ed : Int
  ts : Option String := none
deriving DecidableEq, Repr

/-- `IParagraphStyle` — only the fields the delete commands touch. -/
structure IParagraphStyle where
  hanging : Option Int := none
  indentStart : Option Int := none
deriving DecidableEq, Repr

/-- `IBullet` payload (opaque for the purposes of the commands). -/
structure IBullet where
  listId : String
deriving DecidableEq, Repr

/-- `IParagraph` — a paragraph-break entry of the document body. -/
structure IParagraph where
  startIndex : Int
  paragraphStyle : Option IParagraphStyle := none
  bullet : Option IBullet := none
deriving DecidableEq, Repr

/-- `IDocumentBody` — data stream plus side tables (the fields used by the
delete/merge commands). -/
structure IDocumentBody where
  dataStream : List Char
  textRuns : Option (List ITextRun) := none
  paragraphs : Option (List IParagraph) := none
deriving DecidableEq, Repr

/-- A drawing descriptor (`IDrawingParam`): layout type plus an opaque
payload standing for transform/source data. -/
structure IDrawing where
  drawingId : String
  layoutType : PositionedObjectLayoutType
  payload : String := ""
deriving DecidableEq, Repr

/-- JavaScript `String.prototype.substring`: both arguments are clamped to
`[0, length]` and swapped when out of order. -/
def jsSubstring (s : List Char) (st en : Int) : List Char :=
  let len : Int := s.length
  let a := min (max st 0) len
  let b := min (max en 0) len
  ((s.take (max a b).toNat).drop (min a b).toNat)

/-- `getParagraphBody(body, startIndex, endIndex)` from `src/unnamed/part_001`:
the `dataStream` slice plus the text runs intersecting the slice, re-based
to it. -/
def getParagraphBody (body : IDocumentBody) (startIndex endIndex : Int) :
    IDocumentBody :=
  let dataStream := jsSubstring body.dataStream startIndex endIndex
  match body.textRuns with
  | none => { dataStream := dataStream }
  | some originTextRuns =>
    let textRuns := originTextRuns.filterMap fun textRun =>
      if textRun.ed ≤ startIndex ∨ textRun.st ≥ endIndex then
        none
      else if textRun.st < startIndex then
        some { textRun with st := 0, ed := textRun.ed - startIndex }
      else if textRun.ed > endIndex then
        some { textRun with st := textRun.st - startIndex,
                            ed := endIndex - startIndex }
      else
        some { textRun with st := textRun.st - startIndex,
                            ed := textRun.ed - startIndex }
    { dataStream := dataStream, textRuns := some textRuns }

/-! ### TextX actions and JSONX operations -/

/-- A TextX action (`RETAIN` / `INSERT` / `DELETE`), as pushed by the
commands.  `len` and the optional `segmentId` mirror the pushed objects;
`INSERT` additionally carries the inserted sub-body. -/
inductive TextXAction where
  | retain (len : Int) (segmentId : Option String)
  | insert (body : IDocumentBody) (len : Int) (segmentId : Option String)
  | delete (len : Int) (segmentId : Option String)
deriving DecidableEq, Repr

/-- Modelled from the spec: application of a serialized TextX action list to
a data stream (§3: "RETAIN advances a cursor without change, INSERT adds
content at the cursor, DELETE removes content at the cursor").  The TextX
class itself lives in `@univerjs/core`, outside the repository snapshot;
`push` appends and `serialize` preserves order (§4.1), so an action list is
modelled as the plain list of pushed actions. -/
def applyTextX : List TextXAction → List Char → List Char
  | [], s => s
  | .retain len _ :: rest, s =>
      s.take len.toNat ++ applyTextX rest (s.drop len.toNat)
  | .insert body _ _ :: rest, s => body.dataStream ++ applyTextX rest s
  | .delete len _ :: rest, s => applyTextX rest (s.drop len.toNat)

/-- A key of a JSONX path: an object key, an array index, or the `undefined`
key a missing drawing id would produce. -/
inductive PathKey where
  | key (s : String)
  | index (i : Int)
  | undef
deriving DecidableEq, Repr

/-- The `oldValue` payload of a structural JSONX operation. -/
inductive JValue where
  | jdrawing (d : Option IDrawing)
  | jstr (s : Option String)
deriving DecidableEq, Repr

/-- A JSONX operation as built by the doc commands: `editOp` wrapping a
TextX action list, or a path-addressed `removeOp` asserting the removed
`oldValue` (§4.2). -/
inductive JSONXOp where
  | editOp (actions : List TextXAction)
  | removeOp (path : List PathKey) (oldValue : JValue)
deriving DecidableEq, Repr

/-- Modelled from the spec: `JSONX.compose` (§4.2) — "returns a new
operation list whose cumulative effect equals sequential application" and
"must concatenate independent structural operations (different paths)
without reordering writes"; a `null` accumulator composes to the other
argument.  `JSONX` lives in `@univerjs/core`, outside the snapshot. -/
def jsonxCompose : Option (List JSONXOp) → List JSONXOp → List JSONXOp
  | none, b => b
  | some a, b => a ++ b

/-- `rawActions.reduce((acc, cur) => JSONX.compose(acc, cur), null)` as in
`DeleteCustomBlockCommand`. -/
def composeReduce (raw : List JSONXOp) : List JSONXOp :=
  (raw.foldl (fun acc cur => some (jsonxCompose acc [cur])) none).getD []

/-! ### Document unit state and the rich-text mutation applier -/

/-- The drawings side of a document unit: id-keyed mapping plus the
`drawingsOrder` list. -/
structure DocModel where
  unitId : String
  body : IDocumentBody
  drawings : List (String × IDrawing)
  drawingsOrder : List String
deriving DecidableEq, Repr

/-- Lookup in the drawings mapping (`getDrawings()[id]`). -/
def lookupDrawing (drawings : List (String × IDrawing)) (id : String) :
    Option IDrawing :=
  (drawings.find? (fun kv => kv.1 = id)).map (fun kv => kv.2)

/-- `Array.prototype.indexOf`: the index of the id in `drawingsOrder`, `-1`
when absent. -/
def indexOfStr (l : List String) (s : String) : Int :=
  match l.indexOf? s with
  | some n => (n : Int)
  | none => -1

/-- Modelled from the spec: application of one composed JSONX operation to
the document unit (§4.3 mutation handler, §4.2 failure semantics: an
operation whose asserted `oldValue` does not match the actual state is a
conflict and the application fails).  `editOp` applies its TextX delta to
the data stream; the re-basing of the side tables is not needed by the
claims checked here.  The handler itself lives in `@univerjs/core`. -/
def applyJSONXOp (doc : DocModel) : JSONXOp → Option DocModel
  | .editOp actions =>
      some { doc with
        body := { doc.body with
          dataStream := applyTextX actions doc.body.dataStream } }
  | .removeOp [.key "drawings", .key id] (.jdrawing oldValue) =>
      match lookupDrawing doc.drawings id, oldValue with
      | some d, some d' =>
          if d = d' then
            some { doc with drawings := doc.drawings.filter (fun kv => kv.1 ≠ id) }
          else none
      | _, _ => none
  | .removeOp [.key "drawingsOrder", .index i] (.jstr (some id)) =>
      if 0 ≤ i ∧ i < (doc.drawingsOrder.length : Int) ∧
          doc.drawingsOrder.getD i.toNat "" = id then
        some { doc with drawingsOrder := doc.drawingsOrder.eraseIdx i.toNat }
      else none
  | _ => none

/-- Modelled from the spec: sequential application of a composed operation
list by the rich-text mutation handler. -/
def applyJSONXOps (ops : List JSONXOp) (doc : DocModel) : Option DocModel :=
  match ops with
  | [] => some doc
  | op :: rest => (applyJSONXOp doc op).bind (applyJSONXOps rest)

/-! ### Selection, skeleton and command environment -/

/-- The active text range exposed by the selection manager
(`{startOffset, endOffset, collapsed, segmentId, style}`, §6). -/
structure ActiveRange where
  startOffset : Int
  endOffset : Int
  collapsed : Bool
  segmentId : Option String := none
  style : Option String := none
deriving DecidableEq, Repr

/-- A text range as placed back into the selection (`ITextRangeWithStyle`). -/
structure TextRangeW where
  startOffset : Int
  endOffset : Int
  style : Option String := none
deriving DecidableEq, Repr

/-- One entry of `textSelectionManagerService.getSelections()`; offsets may
be absent (the source skips such entries). -/
structure RangeSel where
  startOffset : Option Int
  endOffset : Option Int
deriving DecidableEq, Repr

/-- Glyph information returned by `findGlyphByCharIndex` (§6):
content, stream type, glyph width in data-stream positions, the drawing id
for object glyphs; `ident` stands for the object identity used by the
source's `!==` comparison. -/
structure Glyph where
  content : Char
  streamType : Char
  count : Int
  drawingId : Option String := none
  ident : Int := 0
deriving DecidableEq, Repr

/-- The skeleton collaborator: glyph lookup by character index. -/
structure Skeleton where
  findGlyphByCharIndex : Int → Option Glyph

/-- The glyph classification helpers imported from `@univerjs/engine-render`
(`hasListGlyph`, `isIndentByGlyph`, `isFirstGlyph`, `getParagraphByGlyph`);
they are external collaborators of the command layer and enter the model as
inputs. -/
structure GlyphFns where
  hasListGlyph : Option Glyph → Bool
  isIndentByGlyph : Option Glyph → IDocumentBody → Bool
  isFirstGlyph : Option Glyph → Bool
  getParagraphByGlyph : Option Glyph → IDocumentBody → Option IParagraph

/-- Modelled from the spec: a skeleton derived from the data stream — one
glyph per position whose content and stream type are the character there
and whose width is 1; `blocks` gives the drawing id at object-sentinel
positions (§6 glossary: glyphs are produced by the external layout
collaborator). -/
def mkSkeleton (body : IDocumentBody) (blocks : Int → Option String) :
    Skeleton :=
  ⟨fun i =>
    if 0 ≤ i ∧ i < (body.dataStream.length : Int) then
      let c := body.dataStream.getD i.toNat ' '
      some { content := c, streamType := c, count := 1,
             drawingId := blocks i, ident := i }
    else none⟩

/-- The collaborators a doc delete/merge command resolves through its
accessor; `none` models a missing collaborator. -/
structure DocCmdEnv where
  docDataModel : Option DocModel
  activeRange : Option ActiveRange
  ranges : Option (List RangeSel)
  skeleton : Option Skeleton
  glyphFns : GlyphFns

/-! ### Command handler embeddings (doc side) -/

/-- Parameters of the rich-text editing mutation the commands dispatch. -/
structure RichTextMutationParams where
  unitId : String
  actions : List JSONXOp
  textRanges : List TextRangeW
  prevTextRanges : List ActiveRange
deriving DecidableEq, Repr

/-- Result of a doc sub-command handler: an early `false` return before any
mutation, a dispatched rich-text mutation, or the place where the source's
non-null assertion is wrong (`undefined` arithmetic in JavaScript). -/
inductive DocCmdResult where
  | precondFail
  | mutate (p : RichTextMutationParams)
  | tsError
deriving DecidableEq, Repr

/-- `MergeTwoParagraphCommand.handler` from `src/unnamed/part_001`
(lines 134–235). -/
def mergeTwoParagraphHandler (activeRange : Option ActiveRange)
    (docDataModel : Option DocModel) (direction : DeleteDirection)
    (range : ActiveRange) : DocCmdResult :=
  match activeRange with
  | none => .precondFail
  | some ar =>
    match docDataModel with
    | none => .precondFail
    | some doc =>
      if ar.collapsed = false then .precondFail
      else
        let startIndex :=
          if direction = .left then ar.startOffset else ar.startOffset + 1
        -- `docDataModel.getBody()?.paragraphs?.find(...)?.startIndex!`:
        -- a missing paragraph table or a failing `find` leaves `endIndex`
        -- `undefined` behind a non-null assertion (NaN arithmetic follows);
        -- modelled as `tsError`.
        match doc.body.paragraphs with
        | none => .tsError
        | some paragraphs =>
          match paragraphs.find? (fun p => p.startIndex ≥ startIndex) with
          | none => .tsError
          | some paragraph =>
            let endIndex := paragraph.startIndex
            let body := getParagraphBody doc.body startIndex endIndex
            let cursor :=
              if direction = .left then ar.startOffset - 1 else ar.startOffset
            let textRanges : List TextRangeW := [⟨cursor, cursor, ar.style⟩]
            let actions : List TextXAction :=
              [.retain (if direction = .left then ar.startOffset - 1
                        else ar.startOffset) ar.segmentId] ++
              (if body.dataStream.length ≠ 0 then
                [.insert body (body.dataStream.length : Int) ar.segmentId]
               else []) ++
              [.retain 1 ar.segmentId,
               .delete (endIndex + 1 - startIndex) ar.segmentId]
            .mutate { unitId := doc.unitId,
                      actions := [JSONXOp.editOp actions],
                      textRanges := textRanges,
                      prevTextRanges := [range] }

/-- `DeleteCustomBlockCommand.handler` from `src/unnamed/part_001`
(lines 46–127). -/
def deleteCustomBlockHandler (activeRange : Option ActiveRange)
    (documentDataModel : Option DocModel) (direction : DeleteDirection)
    (range : ActiveRange) (unitId : String) (drawingId : Option String) :
    DocCmdResult :=
  match activeRange, documentDataModel with
  | some ar, some doc =>
    let cursor :=
      if direction = .left then ar.startOffset - 1 else ar.startOffset
    let textRanges : List TextRangeW := [⟨cursor, cursor, ar.style⟩]
    let textXActions : List TextXAction :=
      (if ar.startOffset > 0 then
        [.retain (if direction = .left then ar.startOffset - 1
                  else ar.startOffset) ar.segmentId]
       else []) ++
      [.delete 1 ar.segmentId]
    let drawing :=
      match drawingId with
      | some id => lookupDrawing doc.drawings id
      | none => none
    let drawingIndex : Int :=
      match drawingId with
      | some id => indexOfStr doc.drawingsOrder id
      | none => -1
    let drawingKey :=
      match drawingId with
      | some id => PathKey.key id
      | none => PathKey.undef
    let rawActions : List JSONXOp :=
      [JSONXOp.editOp textXActions,
       JSONXOp.removeOp [.key "drawings", drawingKey] (.jdrawing drawing),
       JSONXOp.removeOp [.key "drawingsOrder", .index drawingIndex]
         (.jstr drawingId)]
    .mutate { unitId := unitId,
              actions := composeReduce rawActions,
              textRanges := textRanges,
              prevTextRanges := [range] }
  | _, _ => .precondFail

/-- A runtime exception of the JavaScript source. -/
inductive JsError where
  | referenceError (name : String)
  | typeError (name : String)
deriving DecidableEq, Repr

/-- The sub-command a delete key handler dispatches through the command
service. -/
inductive Dispatch where
  | updateCmd (unitId : String) (updateParagraph : IParagraph)
      (rangeStart rangeEnd : Int) (textRanges : List TextRangeW)
      (segmentId : Option String)
  | mergeTwoParagraph (direction : DeleteDirection) (range : ActiveRange)
  | deleteCustomBlock (direction : DeleteDirection) (range : ActiveRange)
      (unitId : String) (drawingId : Option String)
  | deleteCmd (unitId : String) (range : ActiveRange)
      (direction : DeleteDirection) (len : Int) (textRanges : List TextRangeW)
  | cutContent (segmentId : Option String) (textRanges : List TextRangeW)
deriving DecidableEq, Repr

/-- Outcome of `DeleteLeftCommand` / `DeleteRightCommand`: every branch of
the source either returns `false` having dispatched nothing (`fail`),
returns `true` having dispatched nothing (`noop`), dispatches exactly one
sub-command and returns its result (`dispatch`), or trips over a wrong
non-null assertion (`jserror`). -/
inductive DeleteOutcome where
  | fail
  | noop
  | dispatch (d : Dispatch)
  | jserror (e : JsError)
deriving DecidableEq, Repr

/-- `getTextRangesWhenDelete` from `src/unnamed/part_001` (lines 603–627):
the collapsed cursor after a cut is the active range's end offset minus the
lengths of all well-formed selected ranges ending at or before it. -/
def getTextRangesWhenDelete (activeRange : ActiveRange)
    (ranges : List RangeSel) : List TextRangeW :=
  let cursor := ranges.foldl
    (fun c r =>
      match r.startOffset, r.endOffset with
      | some startOffset, some endOffset =>
          if endOffset ≤ activeRange.endOffset then
            c - (endOffset - startOffset)
          else c
      | _, _ => c)
    activeRange.endOffset
  [⟨cursor, cursor, activeRange.style⟩]

/-- `DeleteLeftCommand.handler` from `src/unnamed/part_001`
(lines 238–433). -/
def deleteLeft (env : DocCmdEnv) : DeleteOutcome :=
  match env.docDataModel with
  | none => .fail
  | some doc =>
    match env.activeRange, env.skeleton, env.ranges with
    | some activeRange, some skeleton, some _ranges =>
      let fns := env.glyphFns
      let curGlyph := skeleton.findGlyphByCharIndex activeRange.startOffset
      let isBullet := fns.hasListGlyph curGlyph
      let isIndent := fns.isIndentByGlyph curGlyph doc.body
      let cursor := activeRange.startOffset
      let preGlyph := skeleton.findGlyphByCharIndex (activeRange.startOffset - 1)
      let isUpdateParagraph :=
        fns.isFirstGlyph curGlyph = true ∧ preGlyph ≠ curGlyph ∧
          (isBullet = true ∨ isIndent = true)
      if isUpdateParagraph ∧ activeRange.collapsed = true then
        match fns.getParagraphByGlyph curGlyph doc.body with
        | none => .fail
        | some paragraph =>
          let paragraphIndex := paragraph.startIndex
          let updateParagraph : IParagraph :=
            if isBullet = true then
              match paragraph.paragraphStyle with
              | some paragraphStyle =>
                  { startIndex := 0,
                    paragraphStyle := some
                      (match paragraphStyle.hanging with
                       | some hanging =>
                           { paragraphStyle with
                             indentStart := some hanging, hanging := none }
                       | none => paragraphStyle) }
              | none => { startIndex := 0 }
            else if isIndent = true then
              let withBullet : IParagraph :=
                { startIndex := 0, bullet := paragraph.bullet }
              match paragraph.paragraphStyle with
              | some paragraphStyle =>
                  { withBullet with
                    paragraphStyle := some
                      { paragraphStyle with hanging := none, indentStart := none } }
              | none => withBullet
            else { startIndex := 0 }
          .dispatch (.updateCmd doc.unitId updateParagraph paragraphIndex
            (paragraphIndex + 1) [⟨cursor, cursor, activeRange.style⟩]
            activeRange.segmentId)
      else
        if activeRange.collapsed = true then
          match preGlyph with
          | none =>
            -- No need to delete at the first position of the first paragraph.
            .noop
          | some pre =>
            if pre.content = '\r' then
              .dispatch (.mergeTwoParagraph .left activeRange)
            else if pre.streamType = '\x08' then
              match lookupDrawing doc.drawings (pre.drawingId.getD "") with
              | none => .noop
              | some drawing =>
                if drawing.layoutType = .inline then
                  .dispatch (.deleteCustomBlock .left activeRange doc.unitId
                    pre.drawingId)
                else
                  match skeleton.findGlyphByCharIndex
                      (activeRange.startOffset - 2) with
                  | none => .noop
                  | some prePreGlyph =>
                    let cursor := cursor - pre.count - prePreGlyph.count
                    .dispatch (.deleteCmd doc.unitId
                      { activeRange with
                        startOffset := activeRange.startOffset - 1,
                        endOffset := activeRange.endOffset - 1 }
                      .left prePreGlyph.count
                      [⟨cursor, cursor, activeRange.style⟩])
            else
              let cursor := cursor - pre.count
              .dispatch (.deleteCmd doc.unitId activeRange .left pre.count
                [⟨cursor, cursor, activeRange.style⟩])
        else
          .dispatch (.cutContent activeRange.segmentId
            (getTextRangesWhenDelete activeRange _ranges))
    | _, _, _ => .fail

/-- `DeleteRightCommand.handler` from `src/unnamed/part_001`
(lines 436–555). -/
def deleteRight (env : DocCmdEnv) : DeleteOutcome :=
  match env.docDataModel with
  | none => .fail
  | some doc =>
    match env.activeRange, env.skeleton, env.ranges with
    | some activeRange, some skeleton, some _ranges =>
      -- No need to delete at the last position of the last paragraph.
      if activeRange.startOffset = (doc.body.dataStream.length : Int) - 2 ∧
          activeRange.collapsed = true then
        .noop
      else
        if activeRange.collapsed = true then
          -- `skeleton.findGlyphByCharIndex(startOffset)!` — a null glyph
          -- here would be a TypeError on `.content`.
          match skeleton.findGlyphByCharIndex activeRange.startOffset with
          | none => .jserror (.typeError "needDeleteGlyph")
          | some needDeleteGlyph =>
            let nextGlyph :=
              skeleton.findGlyphByCharIndex (activeRange.startOffset + 1)
            if needDeleteGlyph.content = '\r' then
              .dispatch (.mergeTwoParagraph .right activeRange)
            else if needDeleteGlyph.streamType = '\x08' then
              match lookupDrawing doc.drawings
                  (needDeleteGlyph.drawingId.getD "") with
              | none => .noop
              | some drawing =>
                if drawing.layoutType = .inline then
                  .dispatch (.deleteCustomBlock .right activeRange doc.unitId
                    needDeleteGlyph.drawingId)
                else
                  match nextGlyph with
                  | none => .noop
                  | some nextG =>
                    .dispatch (.deleteCmd doc.unitId
                      { activeRange with
                        startOffset := activeRange.startOffset + 1,
                        endOffset := activeRange.endOffset + 1 }
                      .right nextG.count
                      [⟨activeRange.startOffset + 1,
                        activeRange.startOffset + 1, activeRange.style⟩])
            else
              .dispatch (.deleteCmd doc.unitId activeRange .right
                needDeleteGlyph.count
                [⟨activeRange.startOffset, activeRange.startOffset,
                  activeRange.style⟩])
        else
          .dispatch (.cutContent activeRange.segmentId
            (getTextRangesWhenDelete activeRange _ranges))
    | _, _, _ => .fail

/-! ### Sheet side: mutations, transactions and command embeddings -/

/-- `RANGE_TYPE` from `@univerjs/core`. -/
inductive RangeType where
  | all
  | row
  | column
  | normal
deriving DecidableEq, Repr

/-- `IRange` — a rectangular cell range with an optional range type. -/
structure IRange where
  startRow : Int
  endRow : Int
  startColumn : Int
  endColumn : Int
  rangeType : Option RangeType := none
deriving DecidableEq, Repr

/-- Row properties (`IRowInfo`): height and hidden flag. -/
structure RowInfo where
  h : Int
  hd : Bool
deriving DecidableEq, Repr

/-- Column properties (`IColInfo`): width and hidden flag. -/
structure ColInfo where
  w : Int
  hd : Bool
deriving DecidableEq, Repr

/-- Opaque `cellValue` payload of `SetRangeValuesMutation`. -/
def CellValue := String
deriving instance DecidableEq, Repr for CellValue

/-- Params of `InsertRowMutation`. -/
structure InsertRowMutParams where
  unitId : String
  subUnitId : String
  range : IRange
  rowInfo : List RowInfo
deriving DecidableEq, Repr

/-- Params of `RemoveRowMutation`. -/
structure RemoveRowsMutParams where
  unitId : String
  subUnitId : String
  range : IRange
deriving DecidableEq, Repr

/-- Params of `InsertColMutation`. -/
structure InsertColMutParams where
  unitId : String
  subUnitId : String
  range : IRange
  colInfo : List ColInfo
deriving DecidableEq, Repr

/-- Params of `RemoveColMutation`. -/
structure RemoveColMutParams where
  unitId : String
  subUnitId : String
  range : IRange
deriving DecidableEq, Repr

/-- Params of `SetWorksheetColWidthMutation`. -/
structure ColWidthMutationParams where
  subUnitId : String
  unitId : String
  colWidth : Int
  ranges : List IRange
deriving DecidableEq, Repr

/-- An image drawing parameter (`IImageData`-side payload of
`SetImageMutation`). -/
structure ImgParam where
  drawingId : String
  source : String := ""
deriving DecidableEq, Repr

/-- A sheet drawing parameter (payload of `SetDrawingMutation`). -/
structure DrwParam where
  drawingId : String
  transform : String := ""
deriving DecidableEq, Repr

/-- One `(mutationId, params)` entry of a transaction.  `external` stands
for an interceptor-injected mutation the core treats generically. -/
inductive MutationInfo where
  | insertRow (p : InsertRowMutParams)
  | removeRow (p : RemoveRowsMutParams)
  | insertCol (p : InsertColMutParams)
  | removeCol (p : RemoveColMutParams)
  | setRangeValues (unitId subUnitId : String) (cellValue : CellValue)
  | setColWidth (p : ColWidthMutationParams)
  | setImage (ps : List ImgParam)
  | setDrawing (ps : List DrwParam)
  | clearTransformer (unitIds : List String)
  | followSelectionOp (range : IRange)
  | external (tag : String)
deriving DecidableEq, Repr

/-- An undo/redo transaction as pushed by `pushUndoRedo` (§3). -/
structure Transaction where
  unitID : String
  undoMutations : List MutationInfo
  redoMutations : List MutationInfo
deriving DecidableEq, Repr

/-- The lists returned by `sheetInterceptorService.onCommandExecute`. -/
structure Intercepted where
  preRedos : Option (List MutationInfo) := none
  preUndos : Option (List MutationInfo) := none
  redos : List MutationInfo := []
  undos : List MutationInfo := []

/-- No interceptor registered: all four lists empty. -/
def Intercepted.empty : Intercepted := ⟨none, none, [], []⟩

/-- Worksheet structural state owned by a unit: its row and column lists. -/
structure SheetState where
  rows : List RowInfo
  cols : List ColInfo
deriving DecidableEq, Repr

/-- Sequential application of a mutation list through an executor; the
first failure aborts. -/
def seqApply (exec : MutationInfo → σ → Option σ) :
    List MutationInfo → σ → Option σ
  | [], st => some st
  | m :: ms, st =>
    match exec m st with
    | some st' => seqApply exec ms st'
    | none => none

/-- Modelled from the spec: `sequenceExecute` from `@univerjs/core` under
the §5 cancellation model — "a command either fully succeeds or fully
fails; there is no partial rollback because no mutation is applied until
all preconditions for the composed operation list are accepted", so a
failing sequence leaves the state unchanged. -/
def sequenceExecute (exec : MutationInfo → σ → Option σ)
    (ms : List MutationInfo) (st : σ) : Bool × σ :=
  match seqApply exec ms st with
  | some st' => (true, st')
  | none => (false, st)

/-- Result of running a sheet command handler: returned boolean, the
transaction pushed onto the undo/redo stack (if any), and the worksheet
state afterwards. -/
structure SheetCmdRun where
  ret : Bool
  pushed : Option Transaction
  state : SheetState
deriving DecidableEq, Repr

/-- The common tail of `InsertRowCommand` / `InsertColCommand`:
`const result = sequenceExecute(redos, commandService); if (result.result)
{ pushUndoRedo({unitID, undoMutations: undos, redoMutations: redos});
return true; } return false;`. -/
def finishSeqCommand (exec : MutationInfo → SheetState → Option SheetState)
    (st : SheetState) (unitID : String) (undos redos : List MutationInfo) :
    SheetCmdRun :=
  let result := sequenceExecute exec redos st
  if result.1 then
    { ret := true, pushed := some ⟨unitID, undos, redos⟩, state := result.2 }
  else
    { ret := false, pushed := none, state := result.2 }

/-- Insert `xs` before position `at_` (precondition-checked splice). -/
def spliceInsert (l : List α) (at_ : Int) (xs : List α) : Option (List α) :=
  if 0 ≤ at_ ∧ at_ ≤ (l.length : Int) then
    some (l.take at_.toNat ++ xs ++ l.drop at_.toNat)
  else none

/-- Remove positions `s` through `e` inclusive (precondition-checked). -/
def spliceRemove (l : List α) (s e : Int) : Option (List α) :=
  if 0 ≤ s ∧ s ≤ e ∧ e < (l.length : Int) then
    some (l.take s.toNat ++ l.drop (e + 1).toNat)
  else none

/-- Modelled from the spec: the worksheet-structure mutation handlers
(§4.3 — precondition-checked appliers owned by the unit; a mutation whose
target-state check fails applies nothing).  `followSelectionOp` is the
selection write-back operation and does not change worksheet structure;
mutations outside the modelled row/column structure are rejected. -/
def applySheetMutation : MutationInfo → SheetState → Option SheetState
  | .insertRow p, st =>
      (spliceInsert st.rows p.range.startRow p.rowInfo).map
        (fun rows => { st with rows := rows })
  | .removeRow p, st =>
      (spliceRemove st.rows p.range.startRow p.range.endRow).map
        (fun rows => { st with rows := rows })
  | .insertCol p, st =>
      (spliceInsert st.cols p.range.startColumn p.colInfo).map
        (fun cols => { st with cols := cols })
  | .removeCol p, st =>
      (spliceRemove st.cols p.range.startColumn p.range.endColumn).map
        (fun cols => { st with cols := cols })
  | .followSelectionOp _, st => some st
  | _, _ => none

/-- `Direction` from `@univerjs/core` (the subsets used by the insert
commands). -/
inductive Direction where
  | up
  | down
  | left
  | right
deriving DecidableEq, Repr

/-- Params of `InsertRowCommand`. -/
structure InsertRowCmdParams where
  unitId : String
  subUnitId : String
  direction : Direction
  range : IRange
  cellValue : Option CellValue := none

/-- Params of `InsertColCommand`. -/
structure InsertColCmdParams where
  unitId : String
  subUnitId : String
  direction : Direction
  range : IRange
  cellValue : Option CellValue := none

/-- Environment of the sheet commands: worksheet accessors, the interceptor
result, and the mutation executor (the command service). -/
structure SheetCmdEnv where
  getRowHeight : Int → Int
  getColumnWidth : Int → Int
  intercepted : Intercepted
  exec : MutationInfo → SheetState → Option SheetState

/-- Modelled from the spec: `InsertRowMutationUndoFactory` (imported from
`insert-row-col.mutation.ts`, outside the snapshot) — the undo of an
insert-row mutation removes exactly the inserted range (§3: every mutating
command produces a correct inverse). -/
def InsertRowMutationUndoFactory (p : InsertRowMutParams) :
    RemoveRowsMutParams :=
  ⟨p.unitId, p.subUnitId, p.range⟩

/-- Modelled from the spec: `InsertColMutationUndoFactory`, as for rows. -/
def InsertColMutationUndoFactory (p : InsertColMutParams) :
    RemoveColMutParams :=
  ⟨p.unitId, p.subUnitId, p.range⟩

/-- `InsertRowCommand.handler` from `insert-row-col.command.ts`
(lines 73–145). -/
def insertRowCommand (env : SheetCmdEnv) (st : SheetState)
    (params : InsertRowCmdParams) : SheetCmdRun :=
  let anchorRow :=
    if params.direction = .up then params.range.startRow
    else params.range.startRow - 1
  let height := env.getRowHeight anchorRow
  let insertRowParams : InsertRowMutParams :=
    { unitId := params.unitId, subUnitId := params.subUnitId,
      range := params.range,
      rowInfo := List.replicate
        (params.range.endRow - params.range.startRow + 1).toNat
        { h := height, hd := false } }
  let undoRowInsertionParams := InsertRowMutationUndoFactory insertRowParams
  let redos0 : List MutationInfo := [.insertRow insertRowParams]
  let undos0 : List MutationInfo := [.removeRow undoRowInsertionParams]
  let redos1 := redos0 ++
    (match params.cellValue with
     | some cellValue =>
         [.setRangeValues params.unitId params.subUnitId cellValue]
     | none => [])
  let redos := (env.intercepted.preRedos.getD []) ++ redos1 ++
    env.intercepted.redos ++ [.followSelectionOp params.range]
  let undos := (env.intercepted.preUndos.getD []) ++ undos0 ++
    env.intercepted.undos
  finishSeqCommand env.exec st params.unitId undos redos

/-- `InsertColCommand.handler` from `insert-row-col.command.ts`
(lines 261–332). -/
def insertColCommand (env : SheetCmdEnv) (st : SheetState)
    (params : InsertColCmdParams) : SheetCmdRun :=
  let anchorCol :=
    if params.direction = .left then params.range.startColumn
    else params.range.startColumn - 1
  let width := env.getColumnWidth anchorCol
  let insertColParams : InsertColMutParams :=
    { unitId := params.unitId, subUnitId := params.subUnitId,
      range := params.range,
      colInfo := List.replicate
        (params.range.endColumn - params.range.startColumn + 1).toNat
        { w := width, hd := false } }
  let undoColInsertionParams := InsertColMutationUndoFactory insertColParams
  let redos0 : List MutationInfo := [.insertCol insertColParams]
  let undos0 : List MutationInfo := [.removeCol undoColInsertionParams]
  let redos1 := redos0 ++
    (match params.cellValue with
     | some cellValue =>
         [.setRangeValues params.unitId params.subUnitId cellValue]
     | none => [])
  let redos := (env.intercepted.preRedos.getD []) ++ redos1 ++
    env.intercepted.redos ++ [.followSelectionOp params.range]
  let undos := (env.intercepted.preUndos.getD []) ++ undos0 ++
    env.intercepted.undos
  finishSeqCommand env.exec st params.unitId undos redos

/-- The `{unitId, subUnitId}` part of `getSheetCommandTarget`. -/
structure SheetTarget where
  unitId : String
  subUnitId : String
deriving DecidableEq, Repr

/-- Worksheet accessors used by the column-width commands. -/
structure WorksheetInfo where
  getColumnWidth : Int → Int
  rowCount : Int
  columnCount : Int
  maxRows : Int

/-- One entry of `selectionManagerService.getSelections()` on the sheet
side (only the `range` field is used). -/
structure SelectionSel where
  range : IRange
deriving DecidableEq, Repr

/-- Environment of `SetColWidthCommand`: selections, target, interceptor
result, the undo factory (it reads current widths, an external concern)
and the mutation executor. -/
structure SetColWidthEnv where
  selectionsRanges : Option (List IRange)
  target : Option SheetTarget
  intercepted : Intercepted
  colWidthUndoFactory : ColWidthMutationParams → ColWidthMutationParams
  exec : MutationInfo → SheetState → Option SheetState

/-- `SetColWidthCommand.handler` from `custom-range.ts` (lines 229–284).
The source calls `onCommandExecute` twice with the same arguments (once
destructured, once bound to `intercepted`); both calls are modelled by the
single `intercepted` environment value. -/
def setColWidthCommand (env : SetColWidthEnv) (st : SheetState)
    (value : Int) : SheetCmdRun :=
  match env.selectionsRanges with
  | none => { ret := false, pushed := none, state := st }
  | some [] => { ret := false, pushed := none, state := st }
  | some (sel0 :: selRest) =>
    match env.target with
    | none => { ret := false, pushed := none, state := st }
    | some target =>
      let selections := sel0 :: selRest
      let redoMutationParams : ColWidthMutationParams :=
        { subUnitId := target.subUnitId, unitId := target.unitId,
          colWidth := value, ranges := selections }
      let undoMutationParams := env.colWidthUndoFactory redoMutationParams
      let setColWidthResult :=
        match env.exec (.setColWidth redoMutationParams) st with
        | some st' => (true, st')
        | none => (false, st)
      let ic := env.intercepted
      let result := sequenceExecute env.exec (ic.redos ++ ic.redos)
        setColWidthResult.2
      if setColWidthResult.1 ∧ result.1 then
        { ret := true,
          pushed := some ⟨target.unitId,
            (ic.preUndos.getD []) ++
              [.setColWidth undoMutationParams] ++ ic.undos,
            (ic.preRedos.getD []) ++
              [.setColWidth redoMutationParams] ++ ic.redos⟩,
          state := result.2 }
      else
        { ret := false, pushed := none, state := result.2 }

/-- Params of `DeltaColumnWidthCommand`. -/
structure DeltaColParams where
  anchorCol : Int
  deltaX : Int
deriving DecidableEq, Repr

/-- Environment of `DeltaColumnWidthCommand`.  The mutation executors are
boolean-valued model inputs (the mutations themselves are external to this
command's control flow). -/
structure DeltaColEnv where
  selections : Option (List SelectionSel)
  target : Option (SheetTarget × WorksheetInfo)
  intercepted : Intercepted
  colWidthUndoFactory : ColWidthMutationParams → ColWidthMutationParams
  execSetColWidth : ColWidthMutationParams → Bool
  seqExec : List MutationInfo → Bool

/-- `DeltaColumnWidthCommand.handler` from `custom-range.ts`
(lines 119–223).  When both mutation results are truthy the source
evaluates `intercepted.preUndos` — but no `intercepted` variable is in
scope in this handler, so the push is aborted by a `ReferenceError`; when
they are not, the handler falls through to `return true`.  No
`pushUndoRedo` call ever completes, hence the transaction component is
always `none`. -/
def deltaColumnWidthHandler (env : DeltaColEnv) (params : DeltaColParams) :
    Except JsError Bool × Option Transaction :=
  match env.selections with
  | none => (.ok false, none)
  | some [] => (.ok false, none)
  | some (sel0 :: selRest) =>
    match env.target with
    | none => (.ok false, none)
    | some (_target, worksheet) =>
      let selections := sel0 :: selRest
      let anchorColWidth := worksheet.getColumnWidth params.anchorCol
      let destColumnWidth := anchorColWidth + params.deltaX
      let isAllSheetRange :=
        selections.length = 1 ∧ sel0.range.rangeType = some RangeType.all
      let colSelections :=
        selections.filter (fun s => s.range.rangeType = some RangeType.column)
      let rangeType : RangeType :=
        if isAllSheetRange then .all
        else if colSelections.any (fun s =>
            s.range.startColumn ≤ params.anchorCol ∧
            params.anchorCol ≤ s.range.endColumn) then .column
        else .normal
      let redoMutationParams : ColWidthMutationParams :=
        if rangeType = RangeType.all then
          let rowCount := worksheet.rowCount
          let allColRanges := (List.range worksheet.columnCount.toNat).map
            (fun index =>
              ({ startRow := 0, endRow := rowCount - 1,
                 startColumn := (index : Int),
                 endColumn := (index : Int) } : IRange))
          { subUnitId := _target.subUnitId, unitId := _target.unitId,
            colWidth := destColumnWidth, ranges := allColRanges }
        else if rangeType = RangeType.column then
          { subUnitId := _target.subUnitId, unitId := _target.unitId,
            ranges := colSelections.map (fun s => s.range),
            colWidth := destColumnWidth }
        else
          { subUnitId := _target.subUnitId, unitId := _target.unitId,
            colWidth := destColumnWidth,
            ranges := [{ startRow := 0, endRow := worksheet.maxRows - 1,
                         startColumn := params.anchorCol,
                         endColumn := params.anchorCol }] }
      let interceptorLists := env.intercepted
      let _undoMutationParams := env.colWidthUndoFactory redoMutationParams
      let setColWidthResult := env.execSetColWidth redoMutationParams
      let result := env.seqExec interceptorLists.redos
      if setColWidthResult = true ∧ result = true then
        (.error (.referenceError "intercepted"), none)
      else
        (.ok true, none)

/-! ### Drawing side: `SetSheetImageCommand` -/

/-- One old/new drawing pair of `ISetDrawingCommandParams`. -/
structure DrawingPairHalf where
  sheetDrawingParam : DrwParam
  drawingParam : ImgParam
deriving DecidableEq, Repr

/-- An update entry: the drawing's previous and new parameters. -/
structure DrawingPair where
  oldDrawing : DrawingPairHalf
  newDrawing : DrawingPairHalf
deriving DecidableEq, Repr

/-- Params of `SetSheetImageCommand`. -/
structure SetDrawingCmdParams where
  unitId : String
  drawings : List DrawingPair
deriving DecidableEq, Repr

/-- The drawing-manager state touched by `SetImageMutation` and
`SetDrawingMutation`: id-keyed parameter maps. -/
structure DrawSt where
  images : String → Option ImgParam
  sheetDrawings : String → Option DrwParam

/-- Environment of `SetSheetImageCommand`: the mutation executor. -/
structure DrawCmdEnv where
  execDraw : MutationInfo → DrawSt → Option DrawSt

/-- Result of running `SetSheetImageCommand`. -/
structure DrawCmdRun where
  ret : Bool
  pushed : Option Transaction
  state : DrawSt

/-- `SetSheetImageCommand.handler` from `src/unnamed/part_002`
(lines 646–688).  The two forward mutations are executed unconditionally
and in source order (`SetImageMutation` first, then `SetDrawingMutation`);
the transaction is pushed only when both succeeded. -/
def setSheetImageCommand (env : DrawCmdEnv) (st : DrawSt)
    (params : Option SetDrawingCmdParams) : DrawCmdRun :=
  match params with
  | none => { ret := false, pushed := none, state := st }
  | some p =>
    let newSheetDrawingParams :=
      p.drawings.map (fun pair => pair.newDrawing.sheetDrawingParam)
    let newImageDrawingParams :=
      p.drawings.map (fun pair => pair.newDrawing.drawingParam)
    let oldSheetDrawingParams :=
      p.drawings.map (fun pair => pair.oldDrawing.sheetDrawingParam)
    let oldImageDrawingParams :=
      p.drawings.map (fun pair => pair.oldDrawing.drawingParam)
    let step2 : Bool × DrawSt :=
      match env.execDraw (.setImage newImageDrawingParams) st with
      | some st' => (true, st')
      | none => (false, st)
    let step1 : Bool × DrawSt :=
      match env.execDraw (.setDrawing newSheetDrawingParams) step2.2 with
      | some st' => (true, st')
      | none => (false, step2.2)
    if step1.1 ∧ step2.1 then
      { ret := true,
        pushed := some ⟨p.unitId,
          [.setImage oldImageDrawingParams,
           .setDrawing oldSheetDrawingParams,
           .clearTransformer [p.unitId]],
          [.setImage newImageDrawingParams,
           .setDrawing newSheetDrawingParams,
           .clearTransformer [p.unitId]]⟩,
        state := step1.2 }
    else
      { ret := false, pushed := none, state := step1.2 }

/-- Write each parameter of `ps` into the id-keyed map, in list order. -/
def setAllBy (key : α → String) (ps : List α) (m : String → Option α) :
    String → Option α :=
  ps.foldl (fun acc p => fun id => if id = key p then some p else acc id) m

/-- Modelled from the spec: the drawing mutation handlers
(`SetImageMutation` from `@univerjs/drawing`, `SetDrawingMutation` from
`@univerjs/sheets`, `ClearSheetDrawingTransformerOperation` — all outside
the snapshot).  Setting parameters writes them under their drawing id;
clearing the transformer is a rendering-side operation with no effect on
the parameter maps; other mutations do not address this state. -/
def applyDrawMutation : MutationInfo → DrawSt → Option DrawSt
  | .setImage ps, st =>
      some { st with images := setAllBy (fun p => p.drawingId) ps st.images }
  | .setDrawing ps, st =>
      some { st with
        sheetDrawings := setAllBy (fun p => p.drawingId) ps st.sheetDrawings }
  | .clearTransformer _, st => some st
  | _, _ => none

/-! ### Statement-level definitions -/

/-- The total length of all well-formed selected ranges ending at or before
the active range's end offset; this definition follows the words of the
specification ("the cursor is the active range's end offset minus the total
length of all selected ranges ending at or before it") and is compared with
the source's `getTextRangesWhenDelete`. -/
def specSelectedLengthSum (activeRange : ActiveRange)
    (ranges : List RangeSel) : Int :=
  (ranges.map (fun r =>
    match r.startOffset, r.endOffset with
    | some startOffset, some endOffset =>
        if endOffset ≤ activeRange.endOffset then endOffset - startOffset
        else 0
    | _, _ => 0)).sum

/-- Modelled from the spec: the cut-content command (§4.4 — "delegate to
cut-content command over the union of selected ranges"; the command lives
in `clipboard.inner.command.ts`, outside the snapshot).  The selected
ranges' content is removed from the data stream; ranges are given in
ascending order and removed right-to-left. -/
def cutContentApply (selRanges : List (Int × Int)) (s : List Char) :
    List Char :=
  selRanges.foldr (fun r acc => acc.take r.1.toNat ++ acc.drop r.2.toNat) s

/-- Modelled from the spec: the rich-text mutation dispatched by the plain
`DeleteCommand` (`core-editing.command.ts`, outside the snapshot) — a pure
text edit (retain to the range start, delete `len`); it issues no
structural drawing operation. -/
def deleteCommandActions (range : ActiveRange) (len : Int)
    (segmentId : Option String) : List JSONXOp :=
  [.editOp [.retain range.startOffset segmentId, .delete len segmentId]]

/-! ### Concrete fixtures -/

/-- Glyph helpers for plain text (no bullet, no indent). -/
def plainGlyphFns : GlyphFns :=
  ⟨fun _ => false, fun _ _ => false, fun _ => false, fun _ _ => none⟩

/-- Glyph helpers reporting a bulleted, hanging first-paragraph glyph. -/
def bulletFns : GlyphFns :=
  ⟨fun _ => true, fun _ _ => false, fun _ => true,
   fun _ _ => some { startIndex := 1,
                     paragraphStyle := some { hanging := some 2 },
                     bullet := some ⟨"L1"⟩ }⟩

/-- Scenario A body: `"Hello\rWorld\r"` with paragraphs at 5 and 11. -/
def bodyC2 : IDocumentBody :=
  { dataStream := "Hello\rWorld\r".toList,
    paragraphs := some [{ startIndex := 5 }, { startIndex := 11 }] }

def docC2 : DocModel := ⟨"doc1", bodyC2, [], []⟩

def arC2 : ActiveRange :=
  { startOffset := 6, endOffset := 6, collapsed := true }

def envC2 : DocCmdEnv :=
  ⟨some docC2, some arC2, some [⟨some 6, some 6⟩],
   some (mkSkeleton bodyC2 (fun _ => none)), plainGlyphFns⟩

/-- The extracted sub-body `"World"` of Scenario A. -/
def worldBody : IDocumentBody := { dataStream := "World".toList }

/-- Scenario B: an inline drawing `d1` behind the sentinel at offset 3,
next to an unrelated drawing `d0`. -/
def dr0 : IDrawing := ⟨"d0", .wrapNone, "p0"⟩

def dr1 : IDrawing := ⟨"d1", .inline, "p1"⟩

def bodyC3 : IDocumentBody := { dataStream := "abc\x08de\r".toList }

def docC3 : DocModel :=
  ⟨"docU", bodyC3, [("d0", dr0), ("d1", dr1)], ["d0", "d1"]⟩

def arC3 : ActiveRange :=
  { startOffset := 4, endOffset := 4, collapsed := true }

def envC3 : DocCmdEnv :=
  ⟨some docC3, some arC3, some [⟨some 4, some 4⟩],
   some (mkSkeleton bodyC3 (fun i => if i = 3 then some "d1" else none)),
   plainGlyphFns⟩

/-- A floating (non-inline) drawing behind the sentinel at offset 3. -/
def dr2 : IDrawing := ⟨"d2", .wrapSquare, "p2"⟩

def bodyC8 : IDocumentBody := { dataStream := "abc\x08de\r".toList }

def docC8 : DocModel := ⟨"docU", bodyC8, [("d2", dr2)], ["d2"]⟩

def arC8 : ActiveRange :=
  { startOffset := 4, endOffset := 4, collapsed := true }

def envC8 : DocCmdEnv :=
  ⟨some docC8, some arC8, some [⟨some 4, some 4⟩],
   some (mkSkeleton bodyC8 (fun i => if i = 3 then some "d2" else none)),
   plainGlyphFns⟩

/-- A one-paragraph document used for the boundary cases. -/
def bodyC10 : IDocumentBody :=
  { dataStream := "a\r\n".toList, paragraphs := some [{ startIndex := 1 }] }

def docC10 : DocModel := ⟨"docU", bodyC10, [], []⟩

def arC10 : ActiveRange :=
  { startOffset := 0, endOffset := 0, collapsed := true }

/-- Cursor at the first position of a bulleted first paragraph. -/
def envC10 : DocCmdEnv :=
  ⟨some docC10, some arC10, some [⟨some 0, some 0⟩],
   some (mkSkeleton bodyC10 (fun _ => none)), bulletFns⟩

/-- Cursor at the first position of a plain first paragraph. -/
def envC10w : DocCmdEnv :=
  ⟨some docC10, some arC10, some [⟨some 0, some 0⟩],
   some (mkSkeleton bodyC10 (fun _ => none)), plainGlyphFns⟩

def arC10r : ActiveRange :=
  { startOffset := 1, endOffset := 1, collapsed := true }

/-- Cursor at the last position of the last paragraph
(`startOffset = dataStream.length - 2`). -/
def envC10r : DocCmdEnv :=
  ⟨some docC10, some arC10r, some [⟨some 1, some 1⟩],
   some (mkSkeleton bodyC10 (fun _ => none)), plainGlyphFns⟩

/-- An environment whose active range is missing. -/
def envC7 : DocCmdEnv :=
  ⟨some docC2, none, some [], some (mkSkeleton bodyC2 (fun _ => none)),
   plainGlyphFns⟩

/-- Scenario C: non-collapsed selection spanning `[2, 5)`. -/
def arC9 : ActiveRange :=
  { startOffset := 2, endOffset := 5, collapsed := false }

def rgsC9 : List RangeSel := [⟨some 2, some 5⟩]

def envC9 : DocCmdEnv :=
  ⟨some docC2, some arC9, some rgsC9,
   some (mkSkeleton bodyC2 (fun _ => none)), plainGlyphFns⟩

def streamC9 : List Char := "abcdefghij".toList

/-- Worksheet accessors for the column-width fixtures. -/
def wsInfoF : WorksheetInfo := ⟨fun _ => 80, 10, 4, 1000⟩

/-- A single column selection covering the anchor column. -/
def deltaSelections : List SelectionSel :=
  [⟨{ startRow := 0, endRow := 9, startColumn := 1, endColumn := 1,
      rangeType := some RangeType.column }⟩]

/-- Delta-column-width environment with a given pair of executors. -/
def envDelta (ex : ColWidthMutationParams → Bool)
    (sq : List MutationInfo → Bool) : DeltaColEnv :=
  ⟨some deltaSelections, some (⟨"wb1", "sh1"⟩, wsInfoF), Intercepted.empty,
   id, ex, sq⟩

def pDelta : DeltaColParams := ⟨1, 5⟩

/-- Insert-row fixture: two existing rows, insert rows 1–2. -/
def envR : SheetCmdEnv :=
  ⟨fun _ => 20, fun _ => 80, Intercepted.empty, applySheetMutation⟩

def stR : SheetState := ⟨[⟨10, false⟩, ⟨12, false⟩], []⟩

def pR : InsertRowCmdParams :=
  { unitId := "wb", subUnitId := "sh", direction := .up,
    range := { startRow := 1, endRow := 2, startColumn := 0, endColumn := 5 } }

/-- Set-sheet-image fixture: one drawing `im1` moving from `old` to `new`
parameters. -/
def ppI : SetDrawingCmdParams :=
  { unitId := "wb",
    drawings := [⟨⟨⟨"im1", "oldT"⟩, ⟨"im1", "old"⟩⟩,
                  ⟨⟨"im1", "newT"⟩, ⟨"im1", "new"⟩⟩⟩] }

def stI : DrawSt :=
  ⟨fun id => if id = "im1" then some ⟨"im1", "old"⟩ else none,
   fun id => if id = "im1" then some ⟨"im1", "oldT"⟩ else none⟩

def envI : DrawCmdEnv := ⟨applyDrawMutation⟩

/-- An executor for which `SetDrawingMutation` fails while
`SetImageMutation` succeeds. -/
def envIpartial : DrawCmdEnv :=
  ⟨fun m st =>
    match m with
    | .setDrawing _ => none
    | _ => applyDrawMutation m st⟩

/-- The composed action list built by `DeleteCustomBlockCommand` in
Scenario B. -/
def actsC3 : List JSONXOp :=
  [.editOp [.retain 3 none, .delete 1 none],
   .removeOp [.key "drawings", .key "d1"] (.jdrawing (some dr1)),
   .removeOp [.key "drawingsOrder", .index 1] (.jstr (some "d1"))]

/-- The document unit after Scenario B's mutation. -/
def docC3after : DocModel :=
  ⟨"docU", { dataStream := "abcde\r".toList }, [("d0", dr0)], ["d0"]⟩

/-- A body whose single text run spans the whole stream. -/
def bodyC4 : IDocumentBody :=
  { dataStream := "abcd".toList, textRuns := some [{ st := 0, ed := 4 }] }

/-! ### Helper lemmas -/

theorem splice_roundtrip (l : List α) (s e : Int) (xs : List α)
    (h0 : 0 ≤ s) (hse : s ≤ e) (hsl : s ≤ (l.length : Int))
    (hlen : (xs.length : Int) = e - s + 1) :
    (spliceInsert l s xs).bind (fun l' => spliceRemove l' s e) = some l := by
  have hins : spliceInsert l s xs =
      some (l.take s.toNat ++ xs ++ l.drop s.toNat) := by
    simp [spliceInsert, h0, hsl]
  rw [hins]
  have htake : (l.take s.toNat).length = s.toNat := by
    rw [List.length_take]; omega
  have hlen' : (l.take s.toNat ++ xs ++ l.drop s.toNat).length
      = l.length + xs.length := by
    simp [List.length_append, htake]
    omega
  have hbound : e < ((l.take s.toNat ++ xs ++ l.drop s.toNat).length : Int) := by
    rw [hlen']
    push_cast
    omega
  have h1 : (l.take s.toNat ++ xs ++ l.drop s.toNat).take s.toNat
      = l.take s.toNat := by
    rw [List.append_assoc, List.take_left' htake]
  have hlen2 : (l.take s.toNat ++ xs).length = (e + 1).toNat := by
    rw [List.length_append, htake]; omega
  have h2 : (l.take s.toNat ++ xs ++ l.drop s.toNat).drop (e + 1).toNat
      = l.drop s.toNat := by
    rw [List.append_assoc, ← List.append_assoc, List.drop_left' hlen2]
  simp only [Option.some_bind, spliceRemove]
  rw [if_pos ⟨h0, hse, hbound⟩, h1, h2, List.take_append_drop]

theorem setAllBy_point_none (key : α → String) (ps : List α)
    (m : String → Option α) (id : String) (h : ∀ p ∈ ps, key p ≠ id) :
    setAllBy key ps m id = m id := by
  induction ps generalizing m with
  | nil => rfl
  | cons q rest ih =>
    have hq : id ≠ key q := fun hh => h q (List.mem_cons_self _ _) hh.symm
    have hstep : setAllBy key (q :: rest) m = setAllBy key rest
        (fun i => if i = key q then some q else m i) := rfl
    rw [hstep, ih _ (fun p hp => h p (List.mem_cons_of_mem _ hp))]
    simp [hq]

theorem setAllBy_point_mem (key : α → String) (ps : List α)
    (m : String → Option α) (id : String) (p₀ : α) (hmem : p₀ ∈ ps)
    (hkey : key p₀ = id) :
    ∃ p ∈ ps, key p = id ∧ setAllBy key ps m id = some p := by
  induction ps generalizing m p₀ with
  | nil => cases hmem
  | cons q rest ih =>
    have hstep : setAllBy key (q :: rest) m = setAllBy key rest
        (fun i => if i = key q then some q else m i) := rfl
    by_cases hrest : ∃ p ∈ rest, key p = id
    · rcases hrest with ⟨p, hp, hk⟩
      rcases ih _ p hp hk with ⟨p', hp', hk', hv⟩
      exact ⟨p', List.mem_cons_of_mem _ hp', hk', by rw [hstep]; exact hv⟩
    · have hp0 : p₀ = q := by
        rcases List.mem_cons.mp hmem with h | h
        · exact h
        · exact absurd ⟨p₀, h, hkey⟩ hrest
      subst hp0
      refine ⟨p₀, List.mem_cons_self _ _, hkey, ?_⟩
      rw [hstep, setAllBy_point_none key rest _ id
        (fun p hp hk => hrest ⟨p, hp, hk⟩)]
      simp [hkey]

theorem setAllBy_restore (key : α → String) (pairs : List (α × α))
    (m : String → Option α)
    (hk : ∀ pr ∈ pairs, key pr.1 = key pr.2)
    (hm : ∀ pr ∈ pairs, m (key pr.1) = some pr.1) :
    setAllBy key (pairs.map Prod.fst)
      (setAllBy key (pairs.map Prod.snd) m) = m := by
  funext id
  by_cases hid : ∃ o ∈ pairs.map Prod.fst, key o = id
  · rcases hid with ⟨o, ho, hko⟩
    rcases setAllBy_point_mem key (pairs.map Prod.fst) _ id o ho hko with
      ⟨p, hp, hkp, hv⟩
    rcases List.mem_map.mp hp with ⟨pr, hpr, hfst⟩
    rw [hv, ← hkp, ← hfst, hm pr hpr]
  · have hnone1 : ∀ p ∈ pairs.map Prod.fst, key p ≠ id :=
      fun p hp hk' => hid ⟨p, hp, hk'⟩
    have hnone2 : ∀ p ∈ pairs.map Prod.snd, key p ≠ id := by
      intro p hp hk'
      rcases List.mem_map.mp hp with ⟨pr, hpr, hsnd⟩
      exact hid ⟨pr.1, List.mem_map_of_mem _ hpr,
        by rw [hk pr hpr, hsnd, hk']⟩
    rw [setAllBy_point_none key _ _ id hnone1,
      setAllBy_point_none key _ _ id hnone2]

theorem cursor_foldl_eq (activeRange : ActiveRange) (rgs : List RangeSel)
    (init : Int) :
    rgs.foldl
      (fun c r =>
        match r.startOffset, r.endOffset with
        | some startOffset, some endOffset =>
            if endOffset ≤ activeRange.endOffset then
              c - (endOffset - startOffset)
            else c
        | _, _ => c)
      init
    = init - specSelectedLengthSum activeRange rgs := by
  unfold specSelectedLengthSum
  induction rgs generalizing init with
  | nil => simp
  | cons r rest ih =>
    simp only [List.foldl_cons, List.map_cons, List.sum_cons]
    rw [ih]
    rcases hs : r.startOffset with _ | s <;> rcases he : r.endOffset with _ | e
    · simp
    · simp
    · simp
    · by_cases hle : e ≤ activeRange.endOffset
      · simp only [hle, if_pos]
        omega
      · simp only [hle, if_neg, not_false_iff]
        simp

theorem finishSeqCommand_spec
    (exec : MutationInfo → SheetState → Option SheetState) (st : SheetState)
    (uid : String) (undos redos : List MutationInfo) :
    ((finishSeqCommand exec st uid undos redos).ret = true ↔
      (finishSeqCommand exec st uid undos redos).pushed.isSome = true) ∧
    ((finishSeqCommand exec st uid undos redos).pushed = none →
      (finishSeqCommand exec st uid undos redos).ret = false ∧
      (finishSeqCommand exec st uid undos redos).state = st) ∧
    (∀ T, (finishSeqCommand exec st uid undos redos).pushed = some T →
      T.undoMutations = undos ∧ T.redoMutations = redos ∧
      seqApply exec redos st =
        some (finishSeqCommand exec st uid undos redos).state) := by
  unfold finishSeqCommand sequenceExecute
  rcases h : seqApply exec redos st with _ | st' <;> simp [h]

/-! ### Claim theorems -/

/-- C2: For the document body `"Hello\x0dWorld\x0d"` with paragraph breaks
at offsets 5 and 11 and a collapsed cursor at offset 6, BACKSPACE
(`DeleteLeftCommand`) dispatches `MergeTwoParagraphCommand`; that command
builds the TextX action list RETAIN(5), INSERT(sub-body `"World"`),
RETAIN(1), DELETE(6); applying the list yields `"HelloWorld\x0d"` and the
new collapsed cursor is at offset 5. -/
theorem backspace_merge_two_paragraph_scenario :
    deleteLeft envC2 = .dispatch (.mergeTwoParagraph .left arC2) ∧
    mergeTwoParagraphHandler (some arC2) (some docC2) .left arC2 =
      .mutate { unitId := "doc1",
                actions := [JSONXOp.editOp
                  [.retain 5 none, .insert worldBody 5 none, .retain 1 none,
                   .delete 6 none]],
                textRanges := [⟨5, 5, none⟩],
                prevTextRanges := [arC2] } ∧
    applyTextX
      [.retain 5 none, .insert worldBody 5 none, .retain 1 none,
       .delete 6 none] bodyC2.dataStream = "HelloWorld\r".toList := by
  refine ⟨by decide, by decide, by decide⟩

/-- C3: For the body `"abc\x08de\x0d"` whose inline-object sentinel at
offset 3 carries drawing id `"d1"` (present in both `drawings` and
`drawingsOrder`, next to `"d0"`), BACKSPACE with a collapsed cursor at
offset 4 dispatches `DeleteCustomBlockCommand`; its one composed
transaction is RETAIN(3), DELETE(1) plus the two removeOps, the collapsed
cursor lands at offset 3, and applying the transaction removes exactly one
character and removes `d1` from both structures, leaving `drawingsOrder`
equal to the id set of the `drawings` mapping. -/
theorem backspace_delete_custom_block_scenario :
    deleteLeft envC3 =
      .dispatch (.deleteCustomBlock .left arC3 "docU" (some "d1")) ∧
    deleteCustomBlockHandler (some arC3) (some docC3) .left arC3 "docU"
        (some "d1") =
      .mutate { unitId := "docU", actions := actsC3,
                textRanges := [⟨3, 3, none⟩], prevTextRanges := [arC3] } ∧
    applyJSONXOps actsC3 docC3 = some docC3after ∧
    docC3after.body.dataStream.length + 1 = docC3.body.dataStream.length ∧
    docC3after.drawingsOrder = docC3after.drawings.map Prod.fst := by
  refine ⟨by decide, by decide, by decide, by decide, by decide⟩

/-- C4: evaluation of `getParagraphBody` at the failing input — for the
body `"abcd"` with the single text run `[0, 4)` and the slice
`[1, 3)`, the returned sub-body has data stream `"bc"` (length 2) but its
re-based run is `[0, 3)`, whose end offset exceeds the sub-body length,
violating the claimed invariant `ed ≤ endIndex - startIndex`. -/
theorem getParagraphBody_run_exceeds_slice :
    getParagraphBody bodyC4 1 3 =
      { dataStream := "bc".toList, textRuns := some [{ st := 0, ed := 3 }] } ∧
    ((getParagraphBody bodyC4 1 3).dataStream.length : Int) = 2 ∧
    ¬ ((3 : Int) ≤ 3 - 1) := by
  refine ⟨by decide, by decide, by decide⟩

/-- C7: Whenever a required precondition collaborator is missing (no active
range, no current document data model, no skeleton, or no selection list),
`DeleteLeftCommand`, `DeleteRightCommand`, `MergeTwoParagraphCommand` and
`DeleteCustomBlockCommand` return `false` immediately and dispatch no
mutation, leaving the document body and drawings untouched. -/
theorem missing_collaborator_no_mutation :
    (∀ (docDataModel : Option DocModel) (activeRange : Option ActiveRange)
        (ranges : Option (List RangeSel)) (skeleton : Option Skeleton)
        (fns : GlyphFns),
      docDataModel = none ∨ activeRange = none ∨ skeleton = none ∨
        ranges = none →
      deleteLeft ⟨docDataModel, activeRange, ranges, skeleton, fns⟩ = .fail ∧
      deleteRight ⟨docDataModel, activeRange, ranges, skeleton, fns⟩ = .fail) ∧
    (∀ (activeRange : Option ActiveRange) (docDataModel : Option DocModel)
        (direction : DeleteDirection) (range : ActiveRange) (unitId : String)
        (drawingId : Option String),
      activeRange = none ∨ docDataModel = none →
      mergeTwoParagraphHandler activeRange docDataModel direction range =
        .precondFail ∧
      deleteCustomBlockHandler activeRange docDataModel direction range
        unitId drawingId = .precondFail) := by
  constructor
  · intro docDataModel activeRange ranges skeleton fns h
    rcases docDataModel with _ | doc <;> rcases activeRange with _ | a <;>
      rcases skeleton with _ | s <;> rcases ranges with _ | r <;>
      simp_all [deleteLeft, deleteRight]
  · intro activeRange docDataModel direction range unitId drawingId h
    rcases activeRange with _ | a <;> rcases docDataModel with _ | d <;>
      simp_all [mergeTwoParagraphHandler, deleteCustomBlockHandler]

/-- Witness for C7: a concrete environment with no active range. -/
theorem missing_collaborator_no_mutation_witness :
    deleteLeft envC7 = .fail ∧
    mergeTwoParagraphHandler none (some docC2) .left arC2 = .precondFail :=
  ⟨(missing_collaborator_no_mutation.1 (some docC2) none (some [])
      (some (mkSkeleton bodyC2 (fun _ => none))) plainGlyphFns
      (Or.inr (Or.inl rfl))).1,
   (missing_collaborator_no_mutation.2 none (some docC2)
      DeleteDirection.left arC2 "u" none (Or.inl rfl)).1⟩

/-- C9: For every non-collapsed selection, BACKSPACE and DELETE delegate to
the cut-content command over the selected ranges; the new collapsed cursor
is the active range's end offset minus the total length of all selected
ranges ending at or before it; in the concrete scenario of a single
selection spanning `[2, 5)` the cursor lands at offset 2 and the body
length shrinks by 3 under the modelled cut. -/
theorem noncollapsed_delegates_to_cut :
    (∀ (doc : DocModel) (ar : ActiveRange) (rgs : List RangeSel)
        (skel : Skeleton) (fns : GlyphFns),
      ar.collapsed = false →
      deleteLeft ⟨some doc, some ar, some rgs, some skel, fns⟩ =
        .dispatch (.cutContent ar.segmentId
          (getTextRangesWhenDelete ar rgs)) ∧
      deleteRight ⟨some doc, some ar, some rgs, some skel, fns⟩ =
        .dispatch (.cutContent ar.segmentId
          (getTextRangesWhenDelete ar rgs))) ∧
    (∀ (ar : ActiveRange) (rgs : List RangeSel),
      getTextRangesWhenDelete ar rgs =
        [⟨ar.endOffset - specSelectedLengthSum ar rgs,
          ar.endOffset - specSelectedLengthSum ar rgs, ar.style⟩]) ∧
    (getTextRangesWhenDelete arC9 rgsC9 = [⟨2, 2, none⟩] ∧
      (cutContentApply [(2, 5)] streamC9).length + 3 = streamC9.length) := by
  refine ⟨?_, ?_, by decide, by decide⟩
  · intro doc ar rgs skel fns h
    constructor
    · simp [deleteLeft, h]
    · simp [deleteRight, h]
  · intro ar rgs
    simp only [getTextRangesWhenDelete]
    rw [cursor_foldl_eq]

/-- Witness for C9: the Scenario C environment. -/
theorem noncollapsed_delegates_to_cut_witness :
    deleteLeft envC9 = .dispatch (.cutContent none [⟨2, 2, none⟩]) :=
  (noncollapsed_delegates_to_cut.1 docC2 arC9 rgsC9
    (mkSkeleton bodyC2 (fun _ => none)) plainGlyphFns rfl).1

/-- C8: For every BACKSPACE with a collapsed cursor whose previous glyph is
an object sentinel for a floating (non-inline) drawing, `DeleteLeftCommand`
dispatches only a text `DeleteCommand` over the sentinel pair at the
position; no structural removeOp is issued, so the drawings mapping and
`drawingsOrder` are unchanged by the dispatched mutation. -/
theorem backspace_floating_drawing_text_only
    (doc : DocModel) (ar : ActiveRange) (rgs : List RangeSel)
    (skel : Skeleton) (fns : GlyphFns) (g g2 : Glyph) (d : IDrawing)
    (hcol : ar.collapsed = true)
    (hupd : ¬ (fns.isFirstGlyph (skel.findGlyphByCharIndex ar.startOffset)
        = true ∧
      skel.findGlyphByCharIndex (ar.startOffset - 1) ≠
        skel.findGlyphByCharIndex ar.startOffset ∧
      (fns.hasListGlyph (skel.findGlyphByCharIndex ar.startOffset) = true ∨
       fns.isIndentByGlyph (skel.findGlyphByCharIndex ar.startOffset)
         doc.body = true)))
    (hpre : skel.findGlyphByCharIndex (ar.startOffset - 1) = some g)
    (hcontent : ¬ g.content = '\r')
    (hstream : g.streamType = '\x08')
    (hdraw : lookupDrawing doc.drawings (g.drawingId.getD "") = some d)
    (hlay : ¬ d.layoutType = .inline)
    (hpp : skel.findGlyphByCharIndex (ar.startOffset - 2) = some g2) :
    deleteLeft ⟨some doc, some ar, some rgs, some skel, fns⟩ =
      .dispatch (.deleteCmd doc.unitId
        { ar with startOffset := ar.startOffset - 1,
                  endOffset := ar.endOffset - 1 }
        .left g2.count
        [⟨ar.startOffset - g.count - g2.count,
          ar.startOffset - g.count - g2.count, ar.style⟩]) ∧
    (applyJSONXOps (deleteCommandActions
        { ar with startOffset := ar.startOffset - 1,
                  endOffset := ar.endOffset - 1 } g2.count ar.segmentId)
      doc).map DocModel.drawings = some doc.drawings ∧
    (applyJSONXOps (deleteCommandActions
        { ar with startOffset := ar.startOffset - 1,
                  endOffset := ar.endOffset - 1 } g2.count ar.segmentId)
      doc).map DocModel.drawingsOrder = some doc.drawingsOrder := by
  refine ⟨?_, ?_, ?_⟩
  · simp only [deleteLeft]
    rw [if_neg (fun hc => hupd hc.1), if_pos hcol, hpre]
    simp [hcontent, hstream, hdraw, hlay, hpp]
  · simp [applyJSONXOps, applyJSONXOp, deleteCommandActions]
  · simp [applyJSONXOps, applyJSONXOp, deleteCommandActions]

/-- Witness for C8: the floating drawing `d2` behind the sentinel at
offset 3 with the cursor at offset 4. -/
theorem backspace_floating_drawing_text_only_witness :
    deleteLeft envC8 =
      .dispatch (.deleteCmd "docU"
        { startOffset := 3, endOffset := 3, collapsed := true }
        .left 1 [⟨2, 2, none⟩]) ∧
    (applyJSONXOps (deleteCommandActions
        { startOffset := 3, endOffset := 3, collapsed := true } 1 none)
      docC8).map DocModel.drawings = some docC8.drawings :=
  ⟨(backspace_floating_drawing_text_only docC8 arC8 [⟨some 4, some 4⟩]
      (mkSkeleton bodyC8 (fun i => if i = 3 then some "d2" else none))
      plainGlyphFns
      { content := '\x08', streamType := '\x08', count := 1,
        drawingId := some "d2", ident := 3 }
      { content := 'c', streamType := 'c', count := 1, ident := 2 } dr2
      rfl (by decide) (by decide) (by decide) (by decide) (by decide)
      (by decide) (by decide)).1,
   (backspace_floating_drawing_text_only docC8 arC8 [⟨some 4, some 4⟩]
      (mkSkeleton bodyC8 (fun i => if i = 3 then some "d2" else none))
      plainGlyphFns
      { content := '\x08', streamType := '\x08', count := 1,
        drawingId := some "d2", ident := 3 }
      { content := 'c', streamType := 'c', count := 1, ident := 2 } dr2
      rfl (by decide) (by decide) (by decide) (by decide) (by decide)
      (by decide) (by decide)).2.1⟩

/-- C10 counterexample: with all collaborators present, a collapsed cursor
at the very first position (no previous glyph) of a bulleted first
paragraph, `DeleteLeftCommand` does not return `true` without dispatching —
it takes the paragraph-update branch and dispatches an `UpdateCommand`
mutation. -/
theorem deleteLeft_first_position_bullet_dispatches :
    ((mkSkeleton bodyC10 (fun _ => none)).findGlyphByCharIndex
        (arC10.startOffset - 1) = none ∧
      arC10.collapsed = true) ∧
    deleteLeft envC10 =
      .dispatch (.updateCmd "docU"
        { startIndex := 0,
          paragraphStyle := some { hanging := none, indentStart := some 2 } }
        1 2 [⟨0, 0, none⟩] none) := by
  refine ⟨⟨by decide, by decide⟩, by decide⟩

/-- C10 (amended): with all collaborators present, `DeleteLeftCommand` with
a collapsed cursor whose previous glyph is missing returns `true` without
dispatching any mutation provided the paragraph-update branch (first glyph
of a bulleted or indented paragraph) does not apply; `DeleteRightCommand`
with a collapsed cursor at `dataStream.length - 2` returns `true` without
dispatching any mutation, unconditionally. -/
theorem boundary_delete_noop :
    (∀ (doc : DocModel) (ar : ActiveRange) (rgs : List RangeSel)
        (skel : Skeleton) (fns : GlyphFns),
      ar.collapsed = true →
      skel.findGlyphByCharIndex (ar.startOffset - 1) = none →
      ¬ (fns.isFirstGlyph (skel.findGlyphByCharIndex ar.startOffset)
          = true ∧
        skel.findGlyphByCharIndex (ar.startOffset - 1) ≠
          skel.findGlyphByCharIndex ar.startOffset ∧
        (fns.hasListGlyph (skel.findGlyphByCharIndex ar.startOffset)
            = true ∨
         fns.isIndentByGlyph (skel.findGlyphByCharIndex ar.startOffset)
           doc.body = true)) →
      deleteLeft ⟨some doc, some ar, some rgs, some skel, fns⟩ = .noop) ∧
    (∀ (doc : DocModel) (ar : ActiveRange) (rgs : List RangeSel)
        (skel : Skeleton) (fns : GlyphFns),
      ar.collapsed = true →
      ar.startOffset = (doc.body.dataStream.length : Int) - 2 →
      deleteRight ⟨some doc, some ar, some rgs, some skel, fns⟩ = .noop) := by
  constructor
  · intro doc ar rgs skel fns hcol hpre hupd
    simp only [deleteLeft]
    rw [if_neg (fun hc => hupd hc.1), if_pos hcol, hpre]
  · intro doc ar rgs skel fns hcol hoff
    simp only [deleteRight]
    rw [if_pos ⟨hoff, hcol⟩]

/-- Witness for C10: the plain one-paragraph document, cursor at the first
position for BACKSPACE and at `length - 2` for DELETE. -/
theorem boundary_delete_noop_witness :
    deleteLeft envC10w = .noop ∧ deleteRight envC10r = .noop :=
  ⟨boundary_delete_noop.1 docC10 arC10 [⟨some 0, some 0⟩]
      (mkSkeleton bodyC10 (fun _ => none)) plainGlyphFns rfl (by decide)
      (by decide),
   boundary_delete_noop.2 docC10 arC10r [⟨some 1, some 1⟩]
      (mkSkeleton bodyC10 (fun _ => none)) plainGlyphFns rfl (by decide)⟩

/-- C5: evaluation of `DeltaColumnWidthCommand` on its success path — with
selections and a target present and both mutation executions succeeding,
the handler does not return a boolean: it raises a `ReferenceError` by
evaluating the undefined variable `intercepted` while assembling the
`pushUndoRedo` argument, contradicting the policy that steady-state errors
are surfaced only as boolean results. -/
theorem deltaColumnWidth_success_path_throws
    (env : DeltaColEnv) (params : DeltaColParams)
    (sel0 : SelectionSel) (selRest : List SelectionSel)
    (t : SheetTarget) (w : WorksheetInfo)
    (hsel : env.selections = some (sel0 :: selRest))
    (htgt : env.target = some (t, w))
    (hexec : ∀ q, env.execSetColWidth q = true)
    (hseq : ∀ ms, env.seqExec ms = true) :
    (deltaColumnWidthHandler env params).1 =
      .error (.referenceError "intercepted") := by
  simp only [deltaColumnWidthHandler, hsel, htgt]
  simp [hexec, hseq]

/-- Witness for C5: a concrete column selection with always-succeeding
executors. -/
theorem deltaColumnWidth_success_path_throws_witness :
    (deltaColumnWidthHandler (envDelta (fun _ => true) (fun _ => true))
      pDelta).1 = .error (.referenceError "intercepted") :=
  deltaColumnWidth_success_path_throws
    (envDelta (fun _ => true) (fun _ => true)) pDelta
    ⟨{ startRow := 0, endRow := 9, startColumn := 1, endColumn := 1,
       rangeType := some RangeType.column }⟩ []
    ⟨"wb1", "sh1"⟩ wsInfoF rfl rfl (fun _ => rfl) (fun _ => rfl)

/-- C6 counterexample: the claim fails on `DeltaColumnWidthCommand` and on
`SetSheetImageCommand`.  With a concrete column selection and a failing
column-width mutation, `DeltaColumnWidthCommand` returns `true` (not
`false`) while pushing nothing; and with a concrete image update whose
`SetDrawingMutation` fails after `SetImageMutation` succeeded,
`SetSheetImageCommand` returns `false` with no undo entry but with the
image mutation already applied (the pre-state is not restored). -/
theorem push_discipline_counterexample :
    (deltaColumnWidthHandler (envDelta (fun _ => false) (fun _ => true))
        pDelta).1 = .ok true ∧
    (deltaColumnWidthHandler (envDelta (fun _ => false) (fun _ => true))
        pDelta).2 = none ∧
    (setSheetImageCommand envIpartial stI (some ppI)).ret = false ∧
    (setSheetImageCommand envIpartial stI (some ppI)).pushed = none ∧
    (setSheetImageCommand envIpartial stI (some ppI)).state.images "im1"
      = some ⟨"im1", "new"⟩ ∧
    stI.images "im1" = some ⟨"im1", "old"⟩ := by
  refine ⟨rfl, rfl, rfl, rfl, rfl, rfl⟩

/-- C6 (amended): `InsertRowCommand`, `InsertColCommand`,
`SetColWidthCommand` and `SetSheetImageCommand` push their transaction onto
the undo/redo stack iff all forward (redo) mutations they execute succeed,
and on failure return `false` with no undo entry (for the
`sequenceExecute`-based insert commands the failing sequence also leaves
the worksheet state unchanged; `SetSheetImageCommand` executes its two
forward mutations unconditionally, so an earlier successful mutation is not
rolled back).  `DeltaColumnWidthCommand` never creates an undo entry: on
mutation failure it returns `true`, and on success the push is aborted by
the undefined-variable reference before any entry is created. -/
theorem push_iff_forward_success :
    (∀ (env : SheetCmdEnv) (st : SheetState) (p : InsertRowCmdParams),
      ((insertRowCommand env st p).ret = true ↔
        (insertRowCommand env st p).pushed.isSome = true) ∧
      ((insertRowCommand env st p).pushed = none →
        (insertRowCommand env st p).ret = false ∧
        (insertRowCommand env st p).state = st) ∧
      (∀ T, (insertRowCommand env st p).pushed = some T →
        seqApply env.exec T.redoMutations st =
          some (insertRowCommand env st p).state)) ∧
    (∀ (env : SheetCmdEnv) (st : SheetState) (p : InsertColCmdParams),
      ((insertColCommand env st p).ret = true ↔
        (insertColCommand env st p).pushed.isSome = true) ∧
      ((insertColCommand env st p).pushed = none →
        (insertColCommand env st p).ret = false ∧
        (insertColCommand env st p).state = st) ∧
      (∀ T, (insertColCommand env st p).pushed = some T →
        seqApply env.exec T.redoMutations st =
          some (insertColCommand env st p).state)) ∧
    (∀ (env : SetColWidthEnv) (st : SheetState) (v : Int),
      ((setColWidthCommand env st v).ret = true ↔
        (setColWidthCommand env st v).pushed.isSome = true) ∧
      ((setColWidthCommand env st v).pushed = none →
        (setColWidthCommand env st v).ret = false) ∧
      (env.intercepted = Intercepted.empty →
        ∀ T, (setColWidthCommand env st v).pushed = some T →
          seqApply env.exec T.redoMutations st =
            some (setColWidthCommand env st v).state)) ∧
    (∀ (env : DrawCmdEnv) (st : DrawSt) (pp : SetDrawingCmdParams),
      ((setSheetImageCommand env st (some pp)).ret = true ↔
        (setSheetImageCommand env st (some pp)).pushed.isSome = true) ∧
      ((setSheetImageCommand env st (some pp)).pushed = none →
        (setSheetImageCommand env st (some pp)).ret = false) ∧
      (∀ T, (setSheetImageCommand env st (some pp)).pushed = some T →
        ∃ st1 st2,
          env.execDraw (.setImage (pp.drawings.map
            (fun pr => pr.newDrawing.drawingParam))) st = some st1 ∧
          env.execDraw (.setDrawing (pp.drawings.map
            (fun pr => pr.newDrawing.sheetDrawingParam))) st1 = some st2 ∧
          (setSheetImageCommand env st (some pp)).state = st2)) ∧
    (∀ (env : DeltaColEnv) (p : DeltaColParams),
      (deltaColumnWidthHandler env p).2 = none ∧
      (∀ (sel0 : SelectionSel) (selRest : List SelectionSel)
          (t : SheetTarget) (w : WorksheetInfo),
        env.selections = some (sel0 :: selRest) →
        env.target = some (t, w) →
        (∀ q, env.execSetColWidth q = false) →
        (deltaColumnWidthHandler env p).1 = .ok true)) := by
  refine ⟨?_, ?_, ?_, ?_, ?_⟩
  · intro env st p
    exact ⟨(finishSeqCommand_spec env.exec st p.unitId _ _).1,
      (finishSeqCommand_spec env.exec st p.unitId _ _).2.1,
      fun T hT => by
        rcases (finishSeqCommand_spec env.exec st p.unitId _ _).2.2 T hT with
          ⟨_, hredo, hseq⟩
        rw [hredo]
        exact hseq⟩
  · intro env st p
    exact ⟨(finishSeqCommand_spec env.exec st p.unitId _ _).1,
      (finishSeqCommand_spec env.exec st p.unitId _ _).2.1,
      fun T hT => by
        rcases (finishSeqCommand_spec env.exec st p.unitId _ _).2.2 T hT with
          ⟨_, hredo, hseq⟩
        rw [hredo]
        exact hseq⟩
  · intro env st v
    rcases hsel : env.selectionsRanges with _ | sels
    · simp [setColWidthCommand, hsel]
    · rcases sels with _ | ⟨sel0, selRest⟩
      · simp [setColWidthCommand, hsel]
      · rcases htgt : env.target with _ | target
        · simp [setColWidthCommand, hsel, htgt]
        · simp only [setColWidthCommand, hsel, htgt]
          rcases hw : env.exec (.setColWidth
              { subUnitId := target.subUnitId, unitId := target.unitId,
                colWidth := v, ranges := sel0 :: selRest }) st with _ | st1
          · simp [hw, sequenceExecute]
          · rcases hsq : seqApply env.exec
                (env.intercepted.redos ++ env.intercepted.redos) st1 with
              _ | st2
            · simp [hw, sequenceExecute, hsq]
            · simp only [hw, sequenceExecute, hsq]
              refine ⟨by simp, by simp, ?_⟩
              intro hic T hT
              rw [hic] at hT hsq ⊢
              simp only [Intercepted.empty] at hT hsq ⊢
              simp only [List.append_nil, List.nil_append] at hT
              rcases Option.some.inj hT with rfl
              simp only [seqApply, hw]
              simp only [seqApply] at hsq
              simp [← hsq]
  · intro env st pp
    rcases h2 : env.execDraw (.setImage (pp.drawings.map
        (fun pr => pr.newDrawing.drawingParam))) st with _ | st1
    · rcases h1 : env.execDraw (.setDrawing (pp.drawings.map
          (fun pr => pr.newDrawing.sheetDrawingParam))) st with _ | st2 <;>
        simp [setSheetImageCommand, h2, h1]
    · rcases h1 : env.execDraw (.setDrawing (pp.drawings.map
          (fun pr => pr.newDrawing.sheetDrawingParam))) st1 with _ | st2
      · simp [setSheetImageCommand, h2, h1]
      · simp [setSheetImageCommand, h2, h1]
  · intro env p
    constructor
    · rcases hsel : env.selections with _ | sels
      · simp [deltaColumnWidthHandler, hsel]
      · rcases sels with _ | ⟨sel0, selRest⟩
        · simp [deltaColumnWidthHandler, hsel]
        · rcases htgt : env.target with _ | tw
          · simp [deltaColumnWidthHandler, hsel, htgt]
          · rcases tw with ⟨t, w⟩
            simp only [deltaColumnWidthHandler, hsel, htgt]
            have hsnd : ∀ (c : Prop) [Decidable c]
                (x y : Except JsError Bool),
                (if c then (x, (none : Option Transaction))
                 else (y, none)).2 = none := by
              intro c _ x y
              split <;> rfl
            exact hsnd _ _ _
    · intro sel0 selRest t w hsel htgt hexec
      simp only [deltaColumnWidthHandler, hsel, htgt]
      simp [hexec]

/-- Witness for C6: the insert-row fixture and the failing-mutation delta
fixture. -/
theorem push_iff_forward_success_witness :
    ((insertRowCommand envR stR pR).ret = true ↔
      (insertRowCommand envR stR pR).pushed.isSome = true) ∧
    (deltaColumnWidthHandler (envDelta (fun _ => false) (fun _ => true))
      pDelta).2 = none ∧
    (deltaColumnWidthHandler (envDelta (fun _ => false) (fun _ => true))
      pDelta).1 = .ok true :=
  ⟨(push_iff_forward_success.1 envR stR pR).1,
   (push_iff_forward_success.2.2.2.2
      (envDelta (fun _ => false) (fun _ => true)) pDelta).1,
   (push_iff_forward_success.2.2.2.2
      (envDelta (fun _ => false) (fun _ => true)) pDelta).2
     ⟨{ startRow := 0, endRow := 9, startColumn := 1, endColumn := 1,
        rangeType := some RangeType.column }⟩ []
     ⟨"wb1", "sh1"⟩ wsInfoF rfl rfl (fun _ => rfl)⟩

/-- C1: For commands that execute successfully and push an undo/redo
transaction `T`, replaying `T.redoMutations` and then `T.undoMutations`
through the modelled mutation handlers returns the state to one equal to
the pre-command state: `InsertRowCommand` restores the worksheet's row
structure (for a well-formed range, no cell payload and no interceptors),
and `SetSheetImageCommand` restores the image and sheet-drawing parameter
maps (given that the `oldDrawing` parameters it was invoked with are the
drawings' pre-command parameters, which is the command's calling
contract). -/
theorem undo_redo_roundtrip :
    (∀ (env : SheetCmdEnv) (st : SheetState) (p : InsertRowCmdParams),
      env.exec = applySheetMutation →
      env.intercepted = Intercepted.empty →
      p.cellValue = none →
      0 ≤ p.range.startRow →
      p.range.startRow ≤ p.range.endRow →
      p.range.startRow ≤ (st.rows.length : Int) →
      ∃ T st1, (insertRowCommand env st p).pushed = some T ∧
        seqApply applySheetMutation T.redoMutations st = some st1 ∧
        seqApply applySheetMutation T.undoMutations st1 = some st) ∧
    (∀ (env : DrawCmdEnv) (st : DrawSt) (pp : SetDrawingCmdParams),
      env.execDraw = applyDrawMutation →
      (∀ pr ∈ pp.drawings,
        pr.oldDrawing.drawingParam.drawingId =
          pr.newDrawing.drawingParam.drawingId ∧
        st.images pr.oldDrawing.drawingParam.drawingId =
          some pr.oldDrawing.drawingParam ∧
        pr.oldDrawing.sheetDrawingParam.drawingId =
          pr.newDrawing.sheetDrawingParam.drawingId ∧
        st.sheetDrawings pr.oldDrawing.sheetDrawingParam.drawingId =
          some pr.oldDrawing.sheetDrawingParam) →
      ∃ T st2, (setSheetImageCommand env st (some pp)).pushed = some T ∧
        seqApply applyDrawMutation T.redoMutations st = some st2 ∧
        seqApply applyDrawMutation T.undoMutations st2 = some st) := by
  constructor
  · intro env st p hexec hic hcv h0 hse hsl
    obtain ⟨grh, gcw, ic, ex⟩ := env
    simp only at hexec hic
    subst hexec
    subst hic
    set s := p.range.startRow with hs
    set e := p.range.endRow with he
    set rinfo : List RowInfo := List.replicate (e - s + 1).toNat
      { h := grh (if p.direction = Direction.up then s else s - 1),
        hd := false } with hrinfo
    have hsplice : spliceInsert st.rows s rinfo =
        some (st.rows.take s.toNat ++ rinfo ++ st.rows.drop s.toNat) := by
      simp [spliceInsert, h0, hsl]
    have hlen : (rinfo.length : Int) = e - s + 1 := by
      rw [hrinfo, List.length_replicate]
      omega
    have hrt := splice_roundtrip st.rows s e rinfo h0 hse hsl hlen
    rw [hsplice] at hrt
    simp only [Option.some_bind] at hrt
    refine ⟨⟨p.unitId, [.removeRow ⟨p.unitId, p.subUnitId, p.range⟩],
      [.insertRow ⟨p.unitId, p.subUnitId, p.range, rinfo⟩,
       .followSelectionOp p.range]⟩,
      { st with
        rows := st.rows.take s.toNat ++ rinfo ++ st.rows.drop s.toNat },
      ?_, ?_, ?_⟩
    · simp only [insertRowCommand, hcv, Intercepted.empty, Option.getD_none,
        List.nil_append, List.append_nil, finishSeqCommand, sequenceExecute,
        InsertRowMutationUndoFactory]
      simp [seqApply, applySheetMutation, hsplice]
    · simp [seqApply, applySheetMutation, hsplice]
    · simp [seqApply, applySheetMutation, ← List.append_assoc, hrt]
  · intro env st pp hexec hpairs
    obtain ⟨ex⟩ := env
    simp only at hexec
    subst hexec
    have himg : setAllBy (fun q => q.drawingId)
        (pp.drawings.map (fun pr => pr.oldDrawing.drawingParam))
        (setAllBy (fun q => q.drawingId)
          (pp.drawings.map (fun pr => pr.newDrawing.drawingParam))
          st.images) = st.images := by
      have hr := setAllBy_restore (fun q => q.drawingId)
        (pp.drawings.map (fun pr =>
          (pr.oldDrawing.drawingParam, pr.newDrawing.drawingParam)))
        st.images
        (by
          intro pr hpr
          rcases List.mem_map.mp hpr with ⟨pr0, hpr0, heq⟩
          rw [← heq]
          exact (hpairs pr0 hpr0).1)
        (by
          intro pr hpr
          rcases List.mem_map.mp hpr with ⟨pr0, hpr0, heq⟩
          rw [← heq]
          exact (hpairs pr0 hpr0).2.1)
      simpa [List.map_map, Function.comp] using hr
    have hdrw : setAllBy (fun q => q.drawingId)
        (pp.drawings.map (fun pr => pr.oldDrawing.sheetDrawingParam))
        (setAllBy (fun q => q.drawingId)
          (pp.drawings.map (fun pr => pr.newDrawing.sheetDrawingParam))
          st.sheetDrawings) = st.sheetDrawings := by
      have hr := setAllBy_restore (fun q => q.drawingId)
        (pp.drawings.map (fun pr =>
          (pr.oldDrawing.sheetDrawingParam,
           pr.newDrawing.sheetDrawingParam)))
        st.sheetDrawings
        (by
          intro pr hpr
          rcases List.mem_map.mp hpr with ⟨pr0, hpr0, heq⟩
          rw [← heq]
          exact (hpairs pr0 hpr0).2.2.1)
        (by
          intro pr hpr
          rcases List.mem_map.mp hpr with ⟨pr0, hpr0, heq⟩
          rw [← heq]
          exact (hpairs pr0 hpr0).2.2.2)
      simpa [List.map_map, Function.comp] using hr
    refine ⟨⟨pp.unitId,
      [.setImage (pp.drawings.map (fun pr => pr.oldDrawing.drawingParam)),
       .setDrawing (pp.drawings.map
         (fun pr => pr.oldDrawing.sheetDrawingParam)),
       .clearTransformer [pp.unitId]],
      [.setImage (pp.drawings.map (fun pr => pr.newDrawing.drawingParam)),
       .setDrawing (pp.drawings.map
         (fun pr => pr.newDrawing.sheetDrawingParam)),
       .clearTransformer [pp.unitId]]⟩,
      { images := setAllBy (fun q => q.drawingId)
          (pp.drawings.map (fun pr => pr.newDrawing.drawingParam)) st.images,
        sheetDrawings := setAllBy (fun q => q.drawingId)
          (pp.drawings.map (fun pr => pr.newDrawing.sheetDrawingParam))
          st.sheetDrawings },
      ?_, ?_, ?_⟩
    · simp [setSheetImageCommand, applyDrawMutation]
    · simp [seqApply, applyDrawMutation]
    · simp only [seqApply, applyDrawMutation]
      rw [himg, hdrw]

/-- Witness for C1: the concrete insert-row and set-sheet-image fixtures. -/
theorem undo_redo_roundtrip_witness :
    (∃ T st1, (insertRowCommand envR stR pR).pushed = some T ∧
      seqApply applySheetMutation T.redoMutations stR = some st1 ∧
      seqApply applySheetMutation T.undoMutations st1 = some stR) ∧
    (∃ T st2, (setSheetImageCommand envI stI (some ppI)).pushed = some T ∧
      seqApply applyDrawMutation T.redoMutations stI = some st2 ∧
      seqApply applyDrawMutation T.undoMutations st2 = some stI) :=
  ⟨undo_redo_roundtrip.1 envR stR pR rfl rfl rfl (by decide) (by decide)
      (by decide),
   undo_redo_roundtrip.2 envI stI ppI rfl
     (by
       intro pr hpr
       simp only [ppI, List.mem_singleton] at hpr
       subst hpr
       exact ⟨rfl, rfl, rfl, rfl⟩)⟩

end Univer
